import Mathlib

/-!
Verification of the local service supervisor in
`src/firecrawl/processManager.ts` (class `FirecrawlProcessManager`) and the
health-check probe in `src/firecrawl/client.ts`.

The TypeScript code is single-threaded and cooperative (sequential `await`s),
so it is embedded as pure functions over an explicit manager state, an oracle
describing the behaviour of the external world (spawned OS processes, the
readiness endpoint), a list of observable events (the trace), and a virtual
elapsed time in milliseconds accumulated from the `setTimeout` / `delay`
durations the code actually waits on.

Node.js semantics that the embedding relies on (both documented behaviours of
the Node standard library):
* `ChildProcess.killed` is set to `true` when `subprocess.kill()` successfully
  delivers a signal to the child; it does NOT mean the process has exited.
* a `throw` inside an `EventEmitter` listener (such as the `'error'` handlers
  registered in `startWorkers` / `startApiServer`) is not routed to any
  enclosing promise chain: it surfaces as an uncaught exception, so the
  `try/catch` in `start` never observes it.
-/

namespace Firecrawl

/-- Signals sent by the termination loop in `stop`. -/
inductive Sig
  | sigterm
  | sigkill
deriving Repr, DecidableEq

/-- Observable events of a run, in program order. -/
inductive Event
  /-- a `spawn(...)` call returned a `ChildProcess` for this service. -/
  | spawned (name : String)
  /-- the `redis-cli ping` liveness probe finished; `ok` is `exit code = 0`. -/
  | redisPing (ok : Bool)
  /-- the spawned redis-server printed `Ready to accept connections`. -/
  | redisReady
  /-- a timer or wait of `ms` milliseconds elapsed. -/
  | waited (ms : Nat)
  /-- the child received `process.kill(sig)`. -/
  | signaled (name : String) (sig : Sig)
  /-- one readiness probe (`fetch` of the `/test` endpoint); `ok` is `response.ok`. -/
  | probed (attempt : Nat) (ok : Bool)
deriving Repr, DecidableEq

/-- Model of one `ChildProcess` handle held by the manager.

`killed` is Node's `ChildProcess.killed` flag: set when a `kill()` call
successfully delivered a signal. `alive` says whether an OS process is
currently running behind the handle. `termDelay` is the behaviour of the OS
process: `some d` means it exits `d` ms after receiving SIGTERM, `none` means
it ignores SIGTERM and runs forever. -/
structure Proc where
  name : String
  killed : Bool
  alive : Bool
  termDelay : Option Nat
deriving Repr, DecidableEq

/-- The mutable fields of `FirecrawlProcessManager` (lines 10-15):
`redisProcess`, `workerProcess`, `apiProcess` and `isShuttingDown`. -/
structure Manager where
  redisProcess : Option Proc
  workerProcess : Option Proc
  apiProcess : Option Proc
  isShuttingDown : Bool
deriving Repr, DecidableEq

/-- The manager as constructed: no handles, not shutting down. -/
def Manager.init : Manager := ⟨none, none, none, false⟩

/-- The grace period hard-coded in `stop` (the `setTimeout(..., 5000)`). -/
def GRACE : Nat := 5000

/-- One iteration of the termination loop in `stop` (lines 64-84) applied to a
present handle, returning the updated handle, the events it emits and the
virtual time it takes.

Faithful reading of the body: if `process.killed` is already set, the whole
block is skipped. Otherwise `process.kill('SIGTERM')` is issued (delivery
succeeds exactly when the OS process is alive, and on success Node sets
`killed := true`); then the code awaits a promise that resolves either when
the `'exit'` event fires (the grace timer is cleared) or when the grace timer
fires, in which case it sends SIGKILL only if `!process.killed` — a guard that
is false whenever the SIGTERM delivery succeeded. -/
def stopOne (p : Proc) (grace : Nat) : Proc × List Event × Nat :=
  if p.killed then (p, [], 0)
  else
    let delivered := p.alive
    let p1 : Proc := { p with killed := delivered }
    let evs : List Event := [Event.signaled p.name Sig.sigterm]
    match (if delivered then p.termDelay else none) with
    | some d =>
      if d ≤ grace then
        -- the child exits `d` ms after SIGTERM; `clearTimeout` cancels the timer
        ({ p1 with alive := false }, evs ++ [Event.waited d], d)
      else
        -- the grace timer fires first; `killed` is true, so no SIGKILL
        if p1.killed then (p1, evs ++ [Event.waited grace], grace)
        else ({ p1 with alive := false, killed := true },
              evs ++ [Event.waited grace, Event.signaled p.name Sig.sigkill], grace)
    | none =>
      -- no exit event will fire before the timer
      if p1.killed then (p1, evs ++ [Event.waited grace], grace)
      else ({ p1 with alive := false, killed := true },
            evs ++ [Event.waited grace, Event.signaled p.name Sig.sigkill], grace)

/-- The `if (process && ...)` guard: an absent handle is skipped. -/
def stopSlot (p? : Option Proc) : Option Proc × List Event × Nat :=
  match p? with
  | none => (none, [], 0)
  | some p =>
    let r := stopOne p GRACE
    (some r.1, r.2.1, r.2.2)

/-- The `stop` method (lines 52-88). The re-entrancy guard returns immediately
when `isShuttingDown` is set; otherwise the flag is set and the three handles
are terminated strictly sequentially, in the order API server, workers, Redis,
each iteration awaited before the next begins. -/
def stop (s : Manager) : Manager × List Event × Nat :=
  if s.isShuttingDown then (s, [], 0)
  else
    let s0 : Manager := { s with isShuttingDown := true }
    let ra := stopSlot s0.apiProcess
    let rw := stopSlot s0.workerProcess
    let rr := stopSlot s0.redisProcess
    ({ s0 with apiProcess := ra.1, workerProcess := rw.1, redisProcess := rr.1 },
     ra.2.1 ++ rw.2.1 ++ rr.2.1,
     ra.2.2 + rw.2.2 + rr.2.2)

/-- Errors thrown as `McpError` by the manager. `readinessTimeout` carries the
attempt count interpolated into its message. -/
inductive McpErr
  | redisSpawnFailed
  | redisExited (code : Int)
  | redisTimeout
  | workerSpawnFailed
  | apiSpawnFailed
  | readinessTimeout (attempts : Nat)
deriving Repr, DecidableEq

/-- The message string each error carries, mirroring the source templates. -/
def McpErr.message : McpErr → String
  | .redisSpawnFailed => "Failed to start Redis"
  | .redisExited code => s!"Redis exited with code {code}"
  | .redisTimeout => "Redis failed to start within 10 seconds"
  | .workerSpawnFailed => "Failed to start Firecrawl workers"
  | .apiSpawnFailed => "Failed to start Firecrawl API server"
  | .readinessTimeout n => s!"Firecrawl API server failed to respond after {n} seconds"

/-- The `for (let attempt = 1; attempt <= maxAttempts; attempt++)` loop of
`waitForServices` (lines 208-226), with the running `attempt` counter made
explicit and the number of iterations still allowed as the recursion fuel
(`left + attempt = maxAttempts + 1` at every call from `waitForServices`).
`probe k` is `true` exactly when the `fetch` of attempt `k` resolved with
`response.ok`; a thrown transport error and a non-ok response are both
`false` (the `catch` swallows the former). Each failed attempt other than the
last sleeps `delayMs` before the next probe. -/
def pollLoop (probe : Nat → Bool) (delayMs maxAttempts : Nat) :
    Nat → Nat → List Event × Nat × Except McpErr Unit
  | 0, _ => ([], 0, Except.error (McpErr.readinessTimeout maxAttempts))
  | left + 1, attempt =>
    if probe attempt then
      ([Event.probed attempt true], 0, Except.ok ())
    else if left = 0 then
      ([Event.probed attempt false], 0,
       Except.error (McpErr.readinessTimeout maxAttempts))
    else
      let r := pollLoop probe delayMs maxAttempts left (attempt + 1)
      (Event.probed attempt false :: Event.waited delayMs :: r.1,
       delayMs + r.2.1, r.2.2)

/-- The `waitForServices` method (lines 204-227): `maxAttempts = 30`,
`delayMs = 1000`, attempts numbered from 1. -/
def waitForServices (probe : Nat → Bool) : List Event × Nat × Except McpErr Unit :=
  pollLoop probe 1000 30 30 1

/-- How the spawned `redis-server` behaves, deciding which of the racing
settlement paths of the `startRedis` promise (lines 100-135) wins:
the `'error'` event, the `Ready to accept connections` line on stdout, an
`'exit'` event before readiness, or none of them before the 10 s timeout. -/
inductive RedisSpawnOutcome
  /-- the spawn fails: the `'error'` event fires; no OS process runs. -/
  | errorEv
  /-- stdout prints the ready line `t` ms after spawn. -/
  | readyAfter (t : Nat)
  /-- the process exits with `code`, `t` ms after spawn, before readiness. -/
  | exitAfter (t : Nat) (code : Int)
  /-- nothing observable happens before the 10 s timeout. -/
  | silent
deriving Repr, DecidableEq

/-- The behaviour of the external world during one `start` run: the result of
the `redis-cli ping` check, what the spawned redis-server does, whether the
worker and API spawns fail (their `'error'` event fires), how each spawned
process reacts to SIGTERM, and the outcome of each readiness probe. -/
structure Oracle where
  redisPingOk : Bool
  redisOutcome : RedisSpawnOutcome
  redisTermDelay : Option Nat
  workerSpawnError : Bool
  workerTermDelay : Option Nat
  apiSpawnError : Bool
  apiTermDelay : Option Nat
  probeOk : Nat → Bool

/-- The 10 s guard timer in `startRedis` (line 130). -/
def REDIS_TIMEOUT : Nat := 10000

/-- Result of one startup stage: updated state, events, elapsed ms, and the
rejection the awaiting `start` observes, if any. -/
structure StepRes where
  state : Manager
  events : List Event
  elapsed : Nat
  err : Option McpErr
deriving Repr

/-- The `startRedis` method (lines 90-139). If `redis-cli ping` exits 0 the
promise resolves without spawning. Otherwise `redis-server` is spawned and
`this.redisProcess` is set; the promise settles with whichever happens first:
the `'error'` event (reject), the ready line (resolve), an exit with a
non-zero code while not shutting down (reject), or the 10 s timeout (reject).
An exit with code 0, or any exit while `isShuttingDown` is set, settles
nothing, so the 10 s timeout rejects. A ready line or exit at or beyond
`REDIS_TIMEOUT` loses the race to the timeout, which fires with the process
still running (exit case: the exit has not happened yet at rejection time
either, but the handle is dead weight by the time anyone looks — we keep
`alive := true` only for outcomes that leave the process running at the
moment `start` resumes). -/
def startRedis (s : Manager) (o : Oracle) : StepRes :=
  if o.redisPingOk then
    ⟨s, [Event.redisPing true], 0, none⟩
  else
    match o.redisOutcome with
    | .errorEv =>
      ⟨{ s with redisProcess := some ⟨"redis-server", false, false, o.redisTermDelay⟩ },
       [Event.redisPing false, Event.spawned "redis-server"], 0,
       some McpErr.redisSpawnFailed⟩
    | .readyAfter t =>
      if t < REDIS_TIMEOUT then
        ⟨{ s with redisProcess := some ⟨"redis-server", false, true, o.redisTermDelay⟩ },
         [Event.redisPing false, Event.spawned "redis-server",
          Event.waited t, Event.redisReady], t, none⟩
      else
        ⟨{ s with redisProcess := some ⟨"redis-server", false, true, o.redisTermDelay⟩ },
         [Event.redisPing false, Event.spawned "redis-server",
          Event.waited REDIS_TIMEOUT], REDIS_TIMEOUT, some McpErr.redisTimeout⟩
    | .exitAfter t code =>
      if t < REDIS_TIMEOUT ∧ code ≠ 0 ∧ s.isShuttingDown = false then
        ⟨{ s with redisProcess := some ⟨"redis-server", false, false, o.redisTermDelay⟩ },
         [Event.redisPing false, Event.spawned "redis-server", Event.waited t],
         t, some (McpErr.redisExited code)⟩
      else
        ⟨{ s with redisProcess := some ⟨"redis-server", false,
             decide (t ≥ REDIS_TIMEOUT), o.redisTermDelay⟩ },
         [Event.redisPing false, Event.spawned "redis-server",
          Event.waited REDIS_TIMEOUT], REDIS_TIMEOUT, some McpErr.redisTimeout⟩
    | .silent =>
      ⟨{ s with redisProcess := some ⟨"redis-server", false, true, o.redisTermDelay⟩ },
       [Event.redisPing false, Event.spawned "redis-server",
        Event.waited REDIS_TIMEOUT], REDIS_TIMEOUT, some McpErr.redisTimeout⟩

/-- Overall outcome of a `start` call. `crashed` is the uncaught-exception
path: a `throw` inside a ChildProcess `'error'` listener (lines 164-169 and
196-201) never reaches the `try/catch` in `start`, so no rollback runs and
the promise returned by `start` never rejects with that error. -/
inductive StartOutcome
  | ok
  | error (e : McpErr)
  | crashed (e : McpErr)
deriving Repr, DecidableEq

/-- Result of a `start` run. -/
structure StartRes where
  state : Manager
  events : List Event
  elapsed : Nat
  outcome : StartOutcome

/-- The `start` method (lines 26-50): `startRedis`, a fixed 2000 ms settle
delay, `startWorkers`, `startApiServer` (both spawn synchronously, register
listeners and resolve — the spawn `'error'` event, if any, fires on a later
event-loop turn, during the first await inside `waitForServices`, and its
thrown `McpError` is an uncaught exception), then `waitForServices`. Any
error caught by the `try/catch` triggers `await this.stop()` before being
rethrown. -/
def start (s : Manager) (o : Oracle) : StartRes :=
  let r := startRedis s o
  match r.err with
  | some e =>
    let rs := stop r.state
    ⟨rs.1, r.events ++ rs.2.1, r.elapsed + rs.2.2, .error e⟩
  | none =>
    let wp : Option Proc := some ⟨"worker", false, !o.workerSpawnError, o.workerTermDelay⟩
    let ap : Option Proc := some ⟨"api", false, !o.apiSpawnError, o.apiTermDelay⟩
    let s2 : Manager := { r.state with workerProcess := wp }
    let s3 : Manager := { s2 with apiProcess := ap }
    let evs := r.events ++ [Event.waited 2000, Event.spawned "worker",
                            Event.spawned "api"]
    if o.workerSpawnError then
      ⟨s3, evs, r.elapsed + 2000, .crashed .workerSpawnFailed⟩
    else if o.apiSpawnError then
      ⟨s3, evs, r.elapsed + 2000, .crashed .apiSpawnFailed⟩
    else
      let rp := waitForServices o.probeOk
      match rp.2.2 with
      | .ok _ => ⟨s3, evs ++ rp.1, r.elapsed + 2000 + rp.2.1, .ok⟩
      | .error e =>
        let rs := stop s3
        ⟨rs.1, evs ++ rp.1 ++ rs.2.1, r.elapsed + 2000 + rp.2.1 + rs.2.2, .error e⟩

/-- Outcome of one `fetch` against the readiness endpoint: either a response
with an HTTP status, or a rejection (connection failure, abort/timeout). -/
inductive FetchOutcome
  | response (status : Nat)
  | failure
deriving Repr, DecidableEq

/-- The WHATWG `Response.ok` predicate: status in the range 200-299. -/
def responseOk (status : Nat) : Bool := 200 ≤ status && status < 300

/-- The `healthCheck` methods of `FirecrawlProcessManager` (lines 233-243)
and `FirecrawlClient` (client.ts lines 155-165): one `GET` of the `/test`
endpoint, returning `response.ok`; the `catch` turns every rejection into
`false`, so the method never throws. -/
def healthCheck (f : FetchOutcome) : Bool :=
  match f with
  | .response status => responseOk status
  | .failure => false

/-- Lifecycle states of a managed process as the specification names them. -/
inductive PState
  | Unstarted
  | Starting
  | Running
  | Stopping
  | Stopped
  | Failed
deriving Repr, DecidableEq

/-- Observable lifecycle state of one manager slot, derived from the model:
no handle field means the process was never spawned; a handle over a live OS
process is a running process; a handle whose OS process has exited is a
stopped one. -/
def slotState (p? : Option Proc) : PState :=
  match p? with
  | none => PState.Unstarted
  | some p => if p.alive then PState.Running else PState.Stopped

/-- Number of readiness probes (fetches of the endpoint) in a trace. -/
def probeAttempts (evs : List Event) : Nat :=
  evs.countP fun e => match e with | Event.probed _ _ => true | _ => false

/-- The kill-signal events of a trace. -/
def signalEvents (evs : List Event) : List Event :=
  evs.filter fun e => match e with | Event.signaled _ _ => true | _ => false

/-- The SIGKILL events of a trace. -/
def sigkillEvents (evs : List Event) : List Event :=
  evs.filter fun e => match e with
    | Event.signaled _ Sig.sigkill => true
    | _ => false

/-- Virtual time one termination-loop iteration takes on a slot: nothing for
an empty or already-signalled slot, otherwise the exit delay capped at the
grace period (the full grace period when the process ignores SIGTERM). -/
def slotDuration (p? : Option Proc) : Nat :=
  match p? with
  | none => 0
  | some p =>
    if p.killed then 0
    else match (if p.alive then p.termDelay else none) with
      | some d => min d GRACE
      | none => GRACE

/-- A manager whose three processes are all running and all ignore SIGTERM. -/
def mThreeStubborn : Manager :=
  ⟨some ⟨"redis-server", false, true, none⟩,
   some ⟨"worker", false, true, none⟩,
   some ⟨"api", false, true, none⟩, false⟩

/-- World in which the Redis ping fails, redis-server spawns and becomes
ready after 100 ms, and the worker spawn then fails (its ChildProcess fires
the `'error'` event). -/
def oWorkerSpawnFail : Oracle :=
  ⟨false, RedisSpawnOutcome.readyAfter 100, some 50, true, some 50,
   false, some 50, fun _ => false⟩

/-- World in which Redis is already running and the very first readiness
probe succeeds. -/
def oPingProbeOk : Oracle :=
  ⟨true, RedisSpawnOutcome.silent, none, false, none, false, none, fun _ => true⟩

/-- The state left by running `stop` on a manager holding one live redis
handle that exits 50 ms after SIGTERM. -/
def mAfterStop : Manager :=
  (stop ⟨some ⟨"redis-server", false, true, some 50⟩, none, none, false⟩).1

/-! Helper lemmas about lists. -/

/-- In `l₀ ++ rest`, an element of `l₀` is in every prefix that contains an
element occurring only outside `l₀`. -/
theorem mem_take_append_of_mem {α : Type} {l₀ rest : List α} {a b : α}
    (ha : a ∈ l₀) (hb : b ∉ l₀) :
    ∀ n, b ∈ (l₀ ++ rest).take n → a ∈ (l₀ ++ rest).take n := by
  intro n hbn
  rcases le_or_lt n l₀.length with h | h
  · exfalso
    apply hb
    have h1 : (l₀ ++ rest).take n = l₀.take n := by
      rw [List.take_append_eq_append_take]
      have h2 : n - l₀.length = 0 := Nat.sub_eq_zero_of_le h
      simp [h2]
    rw [h1] at hbn
    exact List.take_subset n l₀ hbn
  · have h1 : (l₀ ++ rest).take n = l₀ ++ rest.take (n - l₀.length) := by
      rw [List.take_append_eq_append_take, List.take_of_length_le (Nat.le_of_lt h)]
    rw [h1]
    exact List.mem_append_left _ ha

/-- An element occurring neither in `pre` nor in `tail`, and distinct from
`a` and `c`, sits at index `pre.length + 1` of `pre ++ a :: b :: c :: tail`
whenever an index lookup finds it. -/
theorem getElem_eq_marked_index {α : Type} (pre tail : List α) (a b c : α)
    (hpre : b ∉ pre) (htail : b ∉ tail) (hba : b ≠ a) (hbc : b ≠ c) :
    ∀ i, (pre ++ a :: b :: c :: tail)[i]? = some b → i = pre.length + 1 := by
  induction pre with
  | nil =>
    intro i hi
    match i with
    | 0 => simp at hi; exact absurd hi.symm hba
    | 1 => simp
    | 2 => simp at hi; exact absurd hi.symm hbc
    | (m + 3) =>
      simp at hi
      exact absurd (List.getElem?_mem hi) htail
  | cons p ps ih =>
    intro i hi
    match i with
    | 0 =>
      simp at hi
      exact absurd (hi ▸ List.mem_cons_self p ps) hpre
    | (m + 1) =>
      have hm := ih (fun hmem => hpre (List.mem_cons_of_mem p hmem)) m
        (by simpa using hi)
      simp [hm]

/-- Index lookups at the three marked positions of
`pre ++ a :: b :: c :: tail`. -/
theorem getElem_marked {α : Type} (pre tail : List α) (a b c : α) :
    (pre ++ a :: b :: c :: tail)[pre.length]? = some a
    ∧ (pre ++ a :: b :: c :: tail)[pre.length + 1]? = some b
    ∧ (pre ++ a :: b :: c :: tail)[pre.length + 2]? = some c := by
  refine ⟨?_, ?_, ?_⟩ <;>
    rw [List.getElem?_append_right (by omega)] <;> simp

/-! Classification of the events each phase can emit. -/

/-- The poll loop emits only probe and wait events. -/
theorem pollLoop_events (probe : Nat → Bool) (d N : Nat) :
    ∀ left attempt e, e ∈ (pollLoop probe d N left attempt).1 →
      (∃ k b, e = Event.probed k b) ∨ ∃ m, e = Event.waited m := by
  intro left
  induction left with
  | zero => intro attempt e h; simp [pollLoop] at h
  | succ m ih =>
    intro attempt e h
    simp only [pollLoop] at h
    split at h
    · simp at h
      exact Or.inl ⟨attempt, true, h⟩
    · split at h
      · simp at h
        exact Or.inl ⟨attempt, false, h⟩
      · simp only [List.mem_cons] at h
        rcases h with h | h | h
        · exact Or.inl ⟨attempt, false, h⟩
        · exact Or.inr ⟨d, h⟩
        · exact ih (attempt + 1) e h

/-- One termination-loop iteration emits only signal and wait events, and
every signal it emits names the process of the slot. -/
theorem stopOne_events (p : Proc) (g : Nat) :
    ∀ e, e ∈ (stopOne p g).2.1 →
      (∃ sg, e = Event.signaled p.name sg) ∨ ∃ m, e = Event.waited m := by
  intro e h
  simp only [stopOne] at h
  split at h
  · simp at h
  · split at h
    · split at h
      · simp at h
        rcases h with rfl | rfl
        · exact Or.inl ⟨_, rfl⟩
        · exact Or.inr ⟨_, rfl⟩
      · split at h <;> simp at h
        · rcases h with rfl | rfl
          · exact Or.inl ⟨_, rfl⟩
          · exact Or.inr ⟨_, rfl⟩
        · rcases h with rfl | rfl | rfl
          · exact Or.inl ⟨_, rfl⟩
          · exact Or.inr ⟨_, rfl⟩
          · exact Or.inl ⟨_, rfl⟩
    · split at h <;> simp at h
      · rcases h with rfl | rfl
        · exact Or.inl ⟨_, rfl⟩
        · exact Or.inr ⟨_, rfl⟩
      · rcases h with rfl | rfl | rfl
        · exact Or.inl ⟨_, rfl⟩
        · exact Or.inr ⟨_, rfl⟩
        · exact Or.inl ⟨_, rfl⟩

/-- The whole `stop` run emits only signal and wait events. -/
theorem stop_events (s : Manager) :
    ∀ e, e ∈ (stop s).2.1 →
      (∃ n sg, e = Event.signaled n sg) ∨ ∃ m, e = Event.waited m := by
  intro e h
  simp only [stop] at h
  split at h
  · simp at h
  · simp only [List.mem_append] at h
    have hslot : ∀ p? , e ∈ (stopSlot p?).2.1 →
        (∃ n sg, e = Event.signaled n sg) ∨ ∃ m, e = Event.waited m := by
      intro p? hp
      match p? with
      | none => simp [stopSlot] at hp
      | some p =>
        simp only [stopSlot] at hp
        rcases stopOne_events p GRACE e hp with ⟨sg, rfl⟩ | hm
        · exact Or.inl ⟨p.name, sg, rfl⟩
        · exact Or.inr hm
    rcases h with (h | h) | h
    · exact hslot _ h
    · exact hslot _ h
    · exact hslot _ h

/-- No spawn event comes out of `stop`. -/
theorem stop_no_spawned (s : Manager) (x : String) :
    Event.spawned x ∉ (stop s).2.1 := by
  intro h
  rcases stop_events s _ h with ⟨n, sg, h⟩ | ⟨m, h⟩ <;> simp at h

/-- No spawn event comes out of the poll loop. -/
theorem pollLoop_no_spawned (probe : Nat → Bool) (d N left attempt : Nat)
    (x : String) : Event.spawned x ∉ (pollLoop probe d N left attempt).1 := by
  intro h
  rcases pollLoop_events probe d N left attempt _ h with ⟨k, b, h⟩ | ⟨m, h⟩ <;>
    simp at h

/-- No signal event comes out of the poll loop. -/
theorem pollLoop_no_signaled (probe : Nat → Bool) (d N left attempt : Nat)
    (n : String) (sg : Sig) :
    Event.signaled n sg ∉ (pollLoop probe d N left attempt).1 := by
  intro h
  rcases pollLoop_events probe d N left attempt _ h with ⟨k, b, h⟩ | ⟨m, h⟩ <;>
    simp at h

/-! Basic facts about `stop` and `startRedis`. -/

/-- A `stop` while the flag is set is a complete no-op. -/
theorem stop_noop_of_flag (s : Manager) (h : s.isShuttingDown = true) :
    stop s = (s, [], 0) := by
  simp [stop, h]

/-- Any `stop` leaves the flag set. -/
theorem stop_flag (s : Manager) : (stop s).1.isShuttingDown = true := by
  simp only [stop]
  split
  · assumption
  · rfl

/-- The termination loop of a first `stop` visits the slots sequentially in
the order API server, workers, Redis, concatenating their events and adding
their durations. -/
theorem stop_run (s : Manager) (h : s.isShuttingDown = false) :
    (stop s).2.1 = (stopSlot s.apiProcess).2.1 ++ (stopSlot s.workerProcess).2.1
        ++ (stopSlot s.redisProcess).2.1
    ∧ (stop s).2.2 = (stopSlot s.apiProcess).2.2 + (stopSlot s.workerProcess).2.2
        + (stopSlot s.redisProcess).2.2 := by
  simp [stop, h]

/-- One slot of the termination loop takes `slotDuration` virtual time. -/
theorem stopSlot_duration (p? : Option Proc) :
    (stopSlot p?).2.2 = slotDuration p? := by
  match p? with
  | none => rfl
  | some p =>
    simp only [stopSlot, stopOne, slotDuration]
    split
    · rfl
    · split
      · split
        · rename_i d hd
          simp [Nat.min_eq_left hd]
        · rename_i d hd
          split <;> simp [Nat.min_eq_right (Nat.le_of_not_le hd)]
      · split <;> rfl

/-- `startRedis` never touches the worker or API slots nor the flag, and
either leaves the Redis slot alone or fills it. -/
theorem startRedis_state (s : Manager) (o : Oracle) :
    (startRedis s o).state.workerProcess = s.workerProcess
    ∧ (startRedis s o).state.apiProcess = s.apiProcess
    ∧ (startRedis s o).state.isShuttingDown = s.isShuttingDown
    ∧ ((startRedis s o).state.redisProcess = s.redisProcess
       ∨ (startRedis s o).state.redisProcess.isSome = true) := by
  simp only [startRedis]
  split
  · exact ⟨rfl, rfl, rfl, Or.inl rfl⟩
  · split <;> first
      | exact ⟨rfl, rfl, rfl, Or.inr rfl⟩
      | (split <;> exact ⟨rfl, rfl, rfl, Or.inr rfl⟩)

/-- The only spawn event `startRedis` can emit is the redis-server one. -/
theorem startRedis_spawned (s : Manager) (o : Oracle) (x : String) :
    Event.spawned x ∈ (startRedis s o).events → x = "redis-server" := by
  intro h
  cases hp : o.redisPingOk with
  | true => simp [startRedis, hp] at h
  | false =>
    cases ho : o.redisOutcome with
    | errorEv => simp [startRedis, hp, ho] at h; exact h
    | readyAfter t =>
      by_cases ht : t < REDIS_TIMEOUT <;>
        simp [startRedis, hp, ho, ht] at h <;> exact h
    | exitAfter t code =>
      by_cases hc : t < REDIS_TIMEOUT ∧ code ≠ 0 ∧ s.isShuttingDown = false <;>
        simp [startRedis, hp, ho, hc] at h <;> exact h
    | silent => simp [startRedis, hp, ho] at h; exact h

/-- `startRedis` emits no kill signals. -/
theorem startRedis_no_signaled (s : Manager) (o : Oracle) (n : String) (sg : Sig) :
    Event.signaled n sg ∉ (startRedis s o).events := by
  intro h
  cases hp : o.redisPingOk with
  | true => simp [startRedis, hp] at h
  | false =>
    cases ho : o.redisOutcome with
    | errorEv => simp [startRedis, hp, ho] at h
    | readyAfter t =>
      by_cases ht : t < REDIS_TIMEOUT <;> simp [startRedis, hp, ho, ht] at h
    | exitAfter t code =>
      by_cases hc : t < REDIS_TIMEOUT ∧ code ≠ 0 ∧ s.isShuttingDown = false <;>
        simp [startRedis, hp, ho, hc] at h
    | silent => simp [startRedis, hp, ho] at h

/-- When `startRedis` resolves, its trace is the ping-positive singleton or
ends with the ready line. -/
theorem startRedis_resolved (s : Manager) (o : Oracle)
    (h : (startRedis s o).err = none) :
    (o.redisPingOk = true ∧ (startRedis s o).events = [Event.redisPing true])
    ∨ (o.redisPingOk = false ∧ ∃ t, (startRedis s o).events
        = [Event.redisPing false, Event.spawned "redis-server",
           Event.waited t, Event.redisReady]) := by
  cases hp : o.redisPingOk with
  | true => exact Or.inl ⟨rfl, by simp [startRedis, hp]⟩
  | false =>
    refine Or.inr ⟨rfl, ?_⟩
    cases ho : o.redisOutcome with
    | errorEv => simp [startRedis, hp, ho] at h
    | readyAfter t =>
      by_cases ht : t < REDIS_TIMEOUT <;>
        simp [startRedis, hp, ho, ht] at h ⊢
    | exitAfter t code =>
      by_cases hc : t < REDIS_TIMEOUT ∧ code ≠ 0 ∧ s.isShuttingDown = false <;>
        simp [startRedis, hp, ho, hc] at h
    | silent => simp [startRedis, hp, ho] at h

/-! Structure of a `start` trace. -/

/-- A spawn event with a name other than redis-server is not among the
`startRedis` events. -/
theorem startRedis_no_other_spawn (s : Manager) (o : Oracle) (x : String)
    (hx : x ≠ "redis-server") : Event.spawned x ∉ (startRedis s o).events :=
  fun h => hx (startRedis_spawned s o x h)

/-- Every `start` trace either never spawns workers or the API server (the
Redis stage failed first), or it contains the settle wait, the worker spawn
and the API spawn as three consecutive events, exactly once, preceded by the
broker-liveness evidence (positive ping or the redis-server ready line). -/
theorem start_shape (s : Manager) (o : Oracle) :
    (Event.spawned "worker" ∉ (start s o).events
     ∧ Event.spawned "api" ∉ (start s o).events)
    ∨ ∃ pre tail,
        (start s o).events
          = pre ++ Event.waited 2000 :: Event.spawned "worker"
              :: Event.spawned "api" :: tail
        ∧ Event.spawned "worker" ∉ pre ∧ Event.spawned "api" ∉ pre
        ∧ Event.spawned "worker" ∉ tail ∧ Event.spawned "api" ∉ tail
        ∧ ((o.redisPingOk = true ∧ Event.redisPing true ∈ pre)
           ∨ (o.redisPingOk = false ∧ Event.redisReady ∈ pre)) := by
  rcases herr : (startRedis s o).err with _ | e
  · -- startRedis resolved: the three stages are reached
    right
    have hwpre := startRedis_no_other_spawn s o "worker" (by decide)
    have hapre := startRedis_no_other_spawn s o "api" (by decide)
    have hbroker :
        (o.redisPingOk = true ∧ Event.redisPing true ∈ (startRedis s o).events)
        ∨ (o.redisPingOk = false ∧ Event.redisReady ∈ (startRedis s o).events) := by
      rcases startRedis_resolved s o herr with ⟨hp, hev⟩ | ⟨hp, t, hev⟩
      · exact Or.inl ⟨hp, by rw [hev]; simp⟩
      · exact Or.inr ⟨hp, by rw [hev]; simp⟩
    cases hw : o.workerSpawnError with
    | true =>
      refine ⟨(startRedis s o).events, [], ?_, hwpre, hapre, by simp, by simp, hbroker⟩
      simp [start, herr, hw]
    | false =>
      cases ha : o.apiSpawnError with
      | true =>
        refine ⟨(startRedis s o).events, [], ?_, hwpre, hapre, by simp, by simp, hbroker⟩
        simp [start, herr, hw, ha]
      | false =>
        have hpollw : Event.spawned "worker" ∉ (waitForServices o.probeOk).1 :=
          pollLoop_no_spawned o.probeOk 1000 30 30 1 "worker"
        have hpolla : Event.spawned "api" ∉ (waitForServices o.probeOk).1 :=
          pollLoop_no_spawned o.probeOk 1000 30 30 1 "api"
        rcases hres : (waitForServices o.probeOk).2.2 with e | u
        case ok =>
          refine ⟨(startRedis s o).events, (waitForServices o.probeOk).1, ?_,
            hwpre, hapre, hpollw, hpolla, hbroker⟩
          simp [start, herr, hw, ha, hres]
        case error =>
          refine ⟨(startRedis s o).events,
            (waitForServices o.probeOk).1
              ++ (stop ⟨(startRedis s o).state.redisProcess,
                    some ⟨"worker", false, true, o.workerTermDelay⟩,
                    some ⟨"api", false, true, o.apiTermDelay⟩,
                    (startRedis s o).state.isShuttingDown⟩).2.1, ?_,
            hwpre, hapre, ?_, ?_, hbroker⟩
          · simp [start, herr, hw, ha, hres]
          · intro hmem
            rcases List.mem_append.mp hmem with hmem | hmem
            · exact hpollw hmem
            · exact stop_no_spawned _ "worker" hmem
          · intro hmem
            rcases List.mem_append.mp hmem with hmem | hmem
            · exact hpolla hmem
            · exact stop_no_spawned _ "api" hmem
  · -- startRedis rejected: only redis-server was ever spawned
    left
    constructor <;> intro hmem <;> simp only [start, herr] at hmem <;>
      rcases List.mem_append.mp hmem with hmem | hmem
    · exact startRedis_no_other_spawn s o "worker" (by decide) hmem
    · exact stop_no_spawned _ "worker" hmem
    · exact startRedis_no_other_spawn s o "api" (by decide) hmem
    · exact stop_no_spawned _ "api" hmem

/-! Behaviour of the readiness poll loop. -/

/-- Unfolding equation: a successful probe ends the loop at once. -/
theorem pollLoop_hit (probe : Nat → Bool) (d N m attempt : Nat)
    (hpa : probe attempt = true) :
    pollLoop probe d N (m + 1) attempt
      = ([Event.probed attempt true], 0, Except.ok ()) := by
  simp [pollLoop, hpa]

/-- Unfolding equation: the last allowed attempt fails and the loop rejects. -/
theorem pollLoop_last (probe : Nat → Bool) (d N attempt : Nat)
    (hpa : probe attempt = false) :
    pollLoop probe d N 1 attempt
      = ([Event.probed attempt false], 0,
         Except.error (McpErr.readinessTimeout N)) := by
  simp [pollLoop, hpa]

/-- Unfolding equation: a failed non-final attempt sleeps and recurses. -/
theorem pollLoop_step (probe : Nat → Bool) (d N m attempt : Nat)
    (hpa : probe attempt = false) (hm : ¬ m = 0) :
    pollLoop probe d N (m + 1) attempt
      = (Event.probed attempt false :: Event.waited d
           :: (pollLoop probe d N m (attempt + 1)).1,
         d + (pollLoop probe d N m (attempt + 1)).2.1,
         (pollLoop probe d N m (attempt + 1)).2.2) := by
  simp [pollLoop, hpa, hm]

/-- A probe event increments the attempt count of a trace. -/
theorem probeAttempts_cons_probed (k : Nat) (b : Bool) (l : List Event) :
    probeAttempts (Event.probed k b :: l) = probeAttempts l + 1 := by
  simp [probeAttempts, List.countP_cons]

/-- A wait event leaves the attempt count of a trace unchanged. -/
theorem probeAttempts_cons_waited (m : Nat) (l : List Event) :
    probeAttempts (Event.waited m :: l) = probeAttempts l := by
  simp [probeAttempts, List.countP_cons]

/-- If every probe in the remaining window fails, the loop consumes exactly
the remaining attempts, sleeps between consecutive ones, and rejects with the
timeout error carrying the attempt budget. -/
theorem pollLoop_exhaust (probe : Nat → Bool) (d N : Nat) :
    ∀ left attempt, 1 ≤ left →
      (∀ k, attempt ≤ k → k < attempt + left → probe k = false) →
      (pollLoop probe d N left attempt).2.2
          = Except.error (McpErr.readinessTimeout N)
      ∧ probeAttempts (pollLoop probe d N left attempt).1 = left
      ∧ (pollLoop probe d N left attempt).2.1 = (left - 1) * d := by
  intro left
  induction left with
  | zero => intro attempt h; omega
  | succ m ih =>
    intro attempt _ hfail
    have hpa : probe attempt = false := hfail attempt le_rfl (by omega)
    by_cases hm : m = 0
    · subst hm
      rw [pollLoop_last probe d N attempt hpa]
      exact ⟨rfl, by simp [probeAttempts], by simp⟩
    · have ihm := ih (attempt + 1) (by omega)
        (fun k hk1 hk2 => hfail k (by omega) (by omega))
      rw [pollLoop_step probe d N m attempt hpa hm]
      refine ⟨ihm.1, ?_, ?_⟩
      · show probeAttempts (Event.probed attempt false :: Event.waited d
          :: (pollLoop probe d N m (attempt + 1)).1) = m + 1
        rw [probeAttempts_cons_probed, probeAttempts_cons_waited, ihm.2.1]
      · show d + (pollLoop probe d N m (attempt + 1)).2.1 = (m + 1 - 1) * d
        rw [ihm.2.2]
        rcases Nat.exists_eq_succ_of_ne_zero hm with ⟨k, rfl⟩
        simp only [Nat.succ_sub_one]
        ring

/-- The loop stops at the first successful probe: if probe `j` is the first
success inside the window, the loop resolves after exactly
`j - attempt + 1` probes. -/
theorem pollLoop_success (probe : Nat → Bool) (d N : Nat) :
    ∀ left attempt j, attempt ≤ j → j < attempt + left →
      (∀ k, attempt ≤ k → k < j → probe k = false) → probe j = true →
      (pollLoop probe d N left attempt).2.2 = Except.ok ()
      ∧ probeAttempts (pollLoop probe d N left attempt).1 = j - attempt + 1 := by
  intro left
  induction left with
  | zero => intro attempt j h1 h2; omega
  | succ m ih =>
    intro attempt j h1 h2 hfail hj
    by_cases hje : attempt = j
    · subst hje
      rw [pollLoop_hit probe d N m attempt hj]
      exact ⟨rfl, by simp [probeAttempts]⟩
    · have hpa : probe attempt = false := hfail attempt le_rfl (by omega)
      have hm : ¬ m = 0 := by omega
      have ihm := ih (attempt + 1) j (by omega) (by omega)
        (fun k hk1 hk2 => hfail k (by omega) hk2) hj
      rw [pollLoop_step probe d N m attempt hpa hm]
      refine ⟨ihm.1, ?_⟩
      show probeAttempts (Event.probed attempt false :: Event.waited d
        :: (pollLoop probe d N m (attempt + 1)).1) = j - attempt + 1
      rw [probeAttempts_cons_probed, probeAttempts_cons_waited, ihm.2]
      omega

/-! Flag and signal facts about `start`. -/

/-- A trace with no signal events has empty `signalEvents`. -/
theorem signalEvents_eq_nil (evs : List Event)
    (h : ∀ n sg, Event.signaled n sg ∉ evs) : signalEvents evs = [] := by
  rw [signalEvents, List.filter_eq_nil_iff]
  intro e he
  match e with
  | Event.signaled n sg => exact absurd he (h n sg)
  | Event.spawned x => simp
  | Event.redisPing b => simp
  | Event.redisReady => simp
  | Event.waited m => simp
  | Event.probed k b => simp

/-- Conversely, a trace with empty `signalEvents` contains no signal. -/
theorem not_signaled_of_signalEvents_nil (evs : List Event)
    (h : signalEvents evs = []) (n : String) (sg : Sig) :
    Event.signaled n sg ∉ evs := by
  intro hmem
  have := List.filter_eq_nil_iff.mp h _ hmem
  simp at this

/-- A `start` from a manager already flagged as shutting down keeps the flag
and delivers no signal to any process: the rollback `stop` inside it returns
immediately. -/
theorem start_flagged (s : Manager) (o : Oracle) (h : s.isShuttingDown = true) :
    (start s o).state.isShuttingDown = true
    ∧ ∀ n sg, Event.signaled n sg ∉ (start s o).events := by
  have hflag : (startRedis s o).state.isShuttingDown = true :=
    (startRedis_state s o).2.2.1.trans h
  have hpoll := pollLoop_no_signaled o.probeOk 1000 30 30 1
  have hmid : ∀ n sg, Event.signaled n sg
      ∉ [Event.waited 2000, Event.spawned "worker", Event.spawned "api"] := by
    intro n sg hmem; simp at hmem
  rcases herr : (startRedis s o).err with _ | e
  · cases hw : o.workerSpawnError with
    | true =>
      have hev : (start s o).events = (startRedis s o).events
          ++ [Event.waited 2000, Event.spawned "worker", Event.spawned "api"] := by
        simp [start, herr, hw]
      refine ⟨by simp [start, herr, hw]; exact hflag, ?_⟩
      intro n sg hmem
      rw [hev] at hmem
      rcases List.mem_append.mp hmem with hmem | hmem
      · exact startRedis_no_signaled s o n sg hmem
      · exact hmid n sg hmem
    | false =>
      cases ha : o.apiSpawnError with
      | true =>
        have hev : (start s o).events = (startRedis s o).events
            ++ [Event.waited 2000, Event.spawned "worker", Event.spawned "api"] := by
          simp [start, herr, hw, ha]
        refine ⟨by simp [start, herr, hw, ha]; exact hflag, ?_⟩
        intro n sg hmem
        rw [hev] at hmem
        rcases List.mem_append.mp hmem with hmem | hmem
        · exact startRedis_no_signaled s o n sg hmem
        · exact hmid n sg hmem
      | false =>
        rcases hres : (waitForServices o.probeOk).2.2 with e | u
        case error =>
          have hnoop := stop_noop_of_flag
            ⟨(startRedis s o).state.redisProcess,
             some ⟨"worker", false, true, o.workerTermDelay⟩,
             some ⟨"api", false, true, o.apiTermDelay⟩,
             (startRedis s o).state.isShuttingDown⟩ hflag
          have hev : (start s o).events = ((startRedis s o).events
              ++ [Event.waited 2000, Event.spawned "worker", Event.spawned "api"])
              ++ (waitForServices o.probeOk).1 := by
            simp [start, herr, hw, ha, hres, hnoop]
          refine ⟨by simp [start, herr, hw, ha, hres, hnoop]; exact hflag, ?_⟩
          intro n sg hmem
          rw [hev] at hmem
          rcases List.mem_append.mp hmem with hmem | hmem
          · rcases List.mem_append.mp hmem with hmem | hmem
            · exact startRedis_no_signaled s o n sg hmem
            · exact hmid n sg hmem
          · exact hpoll n sg hmem
        case ok =>
          have hev : (start s o).events = ((startRedis s o).events
              ++ [Event.waited 2000, Event.spawned "worker", Event.spawned "api"])
              ++ (waitForServices o.probeOk).1 := by
            simp [start, herr, hw, ha, hres]
          refine ⟨by simp [start, herr, hw, ha, hres]; exact hflag, ?_⟩
          intro n sg hmem
          rw [hev] at hmem
          rcases List.mem_append.mp hmem with hmem | hmem
          · rcases List.mem_append.mp hmem with hmem | hmem
            · exact startRedis_no_signaled s o n sg hmem
            · exact hmid n sg hmem
          · exact hpoll n sg hmem
  · have hnoop := stop_noop_of_flag (startRedis s o).state hflag
    have hev : (start s o).events = (startRedis s o).events := by
      simp [start, herr, hnoop]
    refine ⟨by simp [start, herr, hnoop]; exact hflag, ?_⟩
    intro n sg hmem
    rw [hev] at hmem
    exact startRedis_no_signaled s o n sg hmem

/-- A `start` that rejects has already run its rollback `stop`, so its final
state carries the shutdown flag. -/
theorem start_error_flag (s : Manager) (o : Oracle) (e : McpErr)
    (h : (start s o).outcome = StartOutcome.error e) :
    (start s o).state.isShuttingDown = true := by
  rcases herr : (startRedis s o).err with _ | e'
  · cases hw : o.workerSpawnError with
    | true => simp [start, herr, hw] at h
    | false =>
      cases ha : o.apiSpawnError with
      | true => simp [start, herr, hw, ha] at h
      | false =>
        rcases hres : (waitForServices o.probeOk).2.2 with e'' | u
        case error =>
          have hst : (start s o).state
              = (stop ⟨(startRedis s o).state.redisProcess,
                  some ⟨"worker", false, true, o.workerTermDelay⟩,
                  some ⟨"api", false, true, o.apiTermDelay⟩,
                  (startRedis s o).state.isShuttingDown⟩).1 := by
            simp [start, herr, hw, ha, hres]
          rw [hst]
          exact stop_flag _
        case ok => simp [start, herr, hw, ha, hres] at h
  · have hst : (start s o).state = (stop (startRedis s o).state).1 := by
      simp [start, herr]
    rw [hst]
    exact stop_flag _

/-- The termination loop never discards a handle: slot presence is preserved. -/
theorem stopSlot_isSome (p? : Option Proc) :
    (stopSlot p?).1.isSome = p?.isSome := by
  cases p? <;> rfl

/-- `stop` preserves the presence of every handle field. -/
theorem stop_slots (s : Manager) :
    (stop s).1.redisProcess.isSome = s.redisProcess.isSome
    ∧ (stop s).1.workerProcess.isSome = s.workerProcess.isSome
    ∧ (stop s).1.apiProcess.isSome = s.apiProcess.isSome := by
  by_cases h : s.isShuttingDown = true
  · simp [stop, h]
  · simp [stop, h, stopSlot_isSome]

/-- `start` never clears a handle field that was already set. -/
theorem start_slots (s : Manager) (o : Oracle) :
    (s.redisProcess.isSome = true → (start s o).state.redisProcess.isSome = true)
    ∧ (s.workerProcess.isSome = true → (start s o).state.workerProcess.isSome = true)
    ∧ (s.apiProcess.isSome = true → (start s o).state.apiProcess.isSome = true) := by
  have hrs := startRedis_state s o
  have hredis : s.redisProcess.isSome = true →
      (startRedis s o).state.redisProcess.isSome = true := by
    intro hsome
    rcases hrs.2.2.2 with heq | hsome'
    · rw [heq]; exact hsome
    · exact hsome'
  rcases herr : (startRedis s o).err with _ | e'
  · cases hw : o.workerSpawnError with
    | true =>
      refine ⟨fun hsome => ?_, fun _ => ?_, fun _ => ?_⟩ <;>
        simp [start, herr, hw]
      exact hredis hsome
    | false =>
      cases ha : o.apiSpawnError with
      | true =>
        refine ⟨fun hsome => ?_, fun _ => ?_, fun _ => ?_⟩ <;>
          simp [start, herr, hw, ha]
        exact hredis hsome
      | false =>
        rcases hres : (waitForServices o.probeOk).2.2 with e'' | u
        case error =>
          have hst : (start s o).state
              = (stop ⟨(startRedis s o).state.redisProcess,
                  some ⟨"worker", false, true, o.workerTermDelay⟩,
                  some ⟨"api", false, true, o.apiTermDelay⟩,
                  (startRedis s o).state.isShuttingDown⟩).1 := by
            simp [start, herr, hw, ha, hres]
          rw [hst]
          refine ⟨fun hsome => ?_, fun _ => ?_, fun _ => ?_⟩
          · rw [(stop_slots _).1]
            exact hredis hsome
          · rw [(stop_slots _).2.1]
            rfl
          · rw [(stop_slots _).2.2]
            rfl
        case ok =>
          refine ⟨fun hsome => ?_, fun _ => ?_, fun _ => ?_⟩ <;>
            simp [start, herr, hw, ha, hres]
          exact hredis hsome
  · have hst : (start s o).state = (stop (startRedis s o).state).1 := by
      simp [start, herr]
    rw [hst]
    refine ⟨fun hsome => ?_, fun hsome => ?_, fun hsome => ?_⟩
    · rw [(stop_slots _).1]
      exact hredis hsome
    · rw [(stop_slots _).2.1, hrs.1]
      exact hsome
    · rw [(stop_slots _).2.2, hrs.2.1]
      exact hsome

/-! The claims. -/

/-- C1 (code bug): a spawn failure at the worker stage does NOT trigger the
rollback the claim promises. At the concrete input `oWorkerSpawnFail` (Redis
self-spawned and ready, worker spawn fails), `start` ends as an uncaught
crash: its `try/catch` never runs, `stop` is never invoked (no signal in the
trace, shutdown flag still clear), and the spawned redis-server is left in
the Running state. -/
theorem start_worker_spawn_error_no_rollback :
    (start Manager.init oWorkerSpawnFail).outcome
        = StartOutcome.crashed McpErr.workerSpawnFailed
    ∧ signalEvents (start Manager.init oWorkerSpawnFail).events = []
    ∧ (start Manager.init oWorkerSpawnFail).state.redisProcess
        = some ⟨"redis-server", false, true, some 50⟩
    ∧ (start Manager.init oWorkerSpawnFail).state.isShuttingDown = false
    ∧ slotState (start Manager.init oWorkerSpawnFail).state.redisProcess
        = PState.Running := by
  decide

/-- C2 (counterexample): terminating three processes that all ignore SIGTERM,
each with grace period `GRACE = 5000` ms, takes `3 * GRACE` — the sum of the
grace periods, not a single one: the terminations are sequential, not
concurrent. -/
theorem stop_three_stubborn_takes_thrice_grace :
    (stop mThreeStubborn).2.2 = 3 * GRACE ∧ GRACE = 5000 := by
  decide

/-- C2 (amended): `stop` terminates the three slots strictly sequentially in
the order API server, workers, Redis; its total duration is the SUM of the
per-slot waits (each the exit delay capped at the grace period, the full
grace period for a process that ignores SIGTERM), and its trace is the
concatenation of the three slots' traces in that order. -/
theorem stop_sequential_sum (s : Manager) (h : s.isShuttingDown = false) :
    (stop s).2.2 = slotDuration s.apiProcess + slotDuration s.workerProcess
        + slotDuration s.redisProcess
    ∧ (stop s).2.1 = (stopSlot s.apiProcess).2.1
        ++ (stopSlot s.workerProcess).2.1 ++ (stopSlot s.redisProcess).2.1 := by
  have h1 := stop_run s h
  refine ⟨?_, h1.1⟩
  rw [h1.2, stopSlot_duration, stopSlot_duration, stopSlot_duration]

/-- Witness for C2 (amended) at the three-stubborn-processes manager. -/
theorem stop_sequential_sum_witness :
    (stop mThreeStubborn).2.2 = slotDuration mThreeStubborn.apiProcess
      + slotDuration mThreeStubborn.workerProcess
      + slotDuration mThreeStubborn.redisProcess :=
  (stop_sequential_sum mThreeStubborn rfl).1

/-- C3 (code bug): the forceful-kill escalation never happens. For every
live, not-yet-signalled process, the termination step emits no SIGKILL —
even when the process ignores SIGTERM, in which case it is still alive when
the grace period elapses and the step moves on. The two concrete equations
evaluate the step on a SIGTERM-ignoring process (still running after the
full 5000 ms grace, no SIGKILL) and on a process exiting 100 ms after
SIGTERM (timer cancelled at 100 ms, no SIGKILL). -/
theorem terminate_never_escalates :
    (∀ (p : Proc) (g : Nat), p.killed = false → p.alive = true →
       sigkillEvents (stopOne p g).2.1 = []
       ∧ (p.termDelay = none →
          (stopOne p g).1.alive = true ∧ (stopOne p g).2.2 = g))
    ∧ stopOne ⟨"api", false, true, none⟩ 5000
        = (⟨"api", true, true, none⟩,
           [Event.signaled "api" Sig.sigterm, Event.waited 5000], 5000)
    ∧ stopOne ⟨"api", false, true, some 100⟩ 5000
        = (⟨"api", true, false, some 100⟩,
           [Event.signaled "api" Sig.sigterm, Event.waited 100], 100) := by
  refine ⟨?_, by decide, by decide⟩
  intro p g hk ha
  cases ht : p.termDelay with
  | none =>
    refine ⟨?_, fun _ => ⟨?_, ?_⟩⟩ <;>
      simp [stopOne, hk, ha, ht, sigkillEvents]
  | some d =>
    refine ⟨?_, fun hnone => Option.noConfusion hnone⟩
    by_cases hd : d ≤ g <;> simp [stopOne, hk, ha, ht, hd, sigkillEvents]

/-- C4 (confirmed): with an attempt budget of `N ≥ 1` probes `d` ms apart, a
never-succeeding endpoint is probed exactly `N` times over `(N - 1) * d` ms
of waiting and then the poll rejects with `readinessTimeout N` (whose message
interpolates the attempt count, which at the source's 1000 ms interval is
also the elapsed duration in seconds); a first success at attempt `j` ends
the poll successfully after exactly `j` probes. `waitForServices` is this
loop at `N = 30`, `d = 1000`. -/
theorem poll_bounded_attempts (N d : Nat) (probe : Nat → Bool) (hN : 1 ≤ N) :
    ((∀ k, 1 ≤ k → k ≤ N → probe k = false) →
       (pollLoop probe d N N 1).2.2 = Except.error (McpErr.readinessTimeout N)
       ∧ probeAttempts (pollLoop probe d N N 1).1 = N
       ∧ (pollLoop probe d N N 1).2.1 = (N - 1) * d)
    ∧ (∀ j, 1 ≤ j → j ≤ N → (∀ k, 1 ≤ k → k < j → probe k = false) →
         probe j = true →
       (pollLoop probe d N N 1).2.2 = Except.ok ()
       ∧ probeAttempts (pollLoop probe d N N 1).1 = j)
    ∧ waitForServices probe = pollLoop probe 1000 30 30 1 := by
  refine ⟨fun hfail => pollLoop_exhaust probe d N N 1 hN
      (fun k h1 h2 => hfail k h1 (by omega)), ?_, rfl⟩
  intro j h1 h2 hfail hj
  have hs := pollLoop_success probe d N N 1 j h1 (by omega) hfail hj
  exact ⟨hs.1, by rw [hs.2]; omega⟩

/-- Witness for C4 at a two-attempt budget and an always-failing probe. -/
theorem poll_bounded_attempts_witness :
    (pollLoop (fun _ => false) 7 2 2 1).2.2
      = Except.error (McpErr.readinessTimeout 2) :=
  ((poll_bounded_attempts 2 7 (fun _ => false) (by decide)).1
    (fun _ _ _ => rfl)).1

/-- C5 (confirmed): `stop` is idempotent. A `stop` on a manager already
flagged as shutting down is a successful no-op (state unchanged, no events,
no waiting); in particular a second `stop` right after any `stop`, and a
`stop` after a `start` that failed and rolled back, signal nothing. -/
theorem stop_idempotent :
    (∀ s : Manager, s.isShuttingDown = true → stop s = (s, [], 0))
    ∧ (∀ s : Manager, stop (stop s).1 = ((stop s).1, [], 0))
    ∧ (∀ (s : Manager) (o : Oracle) (e : McpErr),
        (start s o).outcome = StartOutcome.error e →
        stop (start s o).state = ((start s o).state, [], 0)) :=
  ⟨stop_noop_of_flag,
   fun s => stop_noop_of_flag _ (stop_flag s),
   fun s o e h => stop_noop_of_flag _ (start_error_flag s o e h)⟩

/-- C6 (counterexample): in a complete successful `start` run (Redis already
up, first probe succeeds) the API-server spawn is the immediate successor of
the worker spawn, and the only settle wait of the whole trace is the single
2000 ms one before the workers: no settle delay follows the worker stage. -/
theorem no_settle_delay_after_workers :
    (start Manager.init oPingProbeOk).events
      = [Event.redisPing true, Event.waited 2000, Event.spawned "worker",
         Event.spawned "api", Event.probed 1 true]
    ∧ (start Manager.init oPingProbeOk).events[2]? = some (Event.spawned "worker")
    ∧ (start Manager.init oPingProbeOk).events[3]? = some (Event.spawned "api")
    ∧ ((start Manager.init oPingProbeOk).events.filter
        (fun e => match e with | Event.waited _ => true | _ => false))
      = [Event.waited 2000] := by
  decide

/-- C6 (amended): the fixed 2000 ms settle delay occurs exactly once, after
the broker stage: wherever the worker spawn sits in a `start` trace, its
immediate predecessor is the 2000 ms wait and its immediate successor is the
API-server spawn — no delay separates the worker stage from the API stage. -/
theorem settle_delay_only_before_workers (s : Manager) (o : Oracle) (i : Nat)
    (h : (start s o).events[i]? = some (Event.spawned "worker")) :
    (start s o).events[i - 1]? = some (Event.waited 2000)
    ∧ (start s o).events[i + 1]? = some (Event.spawned "api") := by
  rcases start_shape s o with ⟨hw, ha⟩ | ⟨pre, tail, hev, hwp, hap, hwt, hat, hb⟩
  · exact absurd (List.getElem?_mem h) hw
  · rw [hev] at h ⊢
    have hidx := getElem_eq_marked_index pre tail (Event.waited 2000)
      (Event.spawned "worker") (Event.spawned "api") hwp hwt
      (by decide) (by decide) i h
    have hm := getElem_marked pre tail (Event.waited 2000)
      (Event.spawned "worker") (Event.spawned "api")
    rw [hidx]
    exact ⟨hm.1, hm.2.2⟩

/-- Witness for C6 (amended) at the successful run, worker spawn at index 2. -/
theorem settle_delay_only_before_workers_witness :
    (start Manager.init oPingProbeOk).events[1]? = some (Event.waited 2000)
    ∧ (start Manager.init oPingProbeOk).events[3]? = some (Event.spawned "api") :=
  settle_delay_only_before_workers Manager.init oPingProbeOk 2 (by decide)

/-- C7 (confirmed): in every prefix of every `start` trace, a worker spawn is
preceded by the broker-liveness evidence (a positive external ping or the
self-spawned redis-server's ready line), and an API-server spawn is preceded
by the worker spawn. -/
theorem spawn_ordering (s : Manager) (o : Oracle) (n : Nat) :
    (Event.spawned "worker" ∈ (start s o).events.take n →
       Event.redisPing true ∈ (start s o).events.take n
       ∨ Event.redisReady ∈ (start s o).events.take n)
    ∧ (Event.spawned "api" ∈ (start s o).events.take n →
       Event.spawned "worker" ∈ (start s o).events.take n) := by
  rcases start_shape s o with ⟨hw, ha⟩ | ⟨pre, tail, hev, hwp, hap, hwt, hat, hb⟩
  · exact ⟨fun hmem => absurd (List.take_subset n _ hmem) hw,
           fun hmem => absurd (List.take_subset n _ hmem) ha⟩
  · constructor
    · intro hmem
      have hsplit : (start s o).events
          = (pre ++ [Event.waited 2000]) ++ Event.spawned "worker"
              :: Event.spawned "api" :: tail := by
        rw [hev]
        simp
      rw [hsplit] at hmem ⊢
      have hnot : Event.spawned "worker" ∉ pre ++ [Event.waited 2000] := by
        intro hc
        rcases List.mem_append.mp hc with hc | hc
        · exact hwp hc
        · simp at hc
      rcases hb with ⟨hp, hping⟩ | ⟨hp, hready⟩
      · exact Or.inl (mem_take_append_of_mem
          (List.mem_append_left _ hping) hnot n hmem)
      · exact Or.inr (mem_take_append_of_mem
          (List.mem_append_left _ hready) hnot n hmem)
    · intro hmem
      have hsplit : (start s o).events
          = (pre ++ [Event.waited 2000, Event.spawned "worker"])
              ++ Event.spawned "api" :: tail := by
        rw [hev]
        simp
      rw [hsplit] at hmem ⊢
      have hnot : Event.spawned "api" ∉ pre
          ++ [Event.waited 2000, Event.spawned "worker"] := by
        intro hc
        rcases List.mem_append.mp hc with hc | hc
        · exact hap hc
        · simp at hc
      exact mem_take_append_of_mem
        (List.mem_append_right _ (by simp)) hnot n hmem

/-- C8 (counterexample): after `stop` has terminated the single running
redis-server (it exits 50 ms after SIGTERM), the handle field is still set
while the process is in the Stopped state — the handle is not released on
exit, violating the claimed equivalence between a non-null handle and a
state among Starting, Running, Stopping. -/
theorem handle_retained_after_exit :
    mAfterStop.redisProcess.isSome = true
    ∧ slotState mAfterStop.redisProcess = PState.Stopped
    ∧ ([PState.Starting, PState.Running, PState.Stopping].contains
        (slotState mAfterStop.redisProcess)) = false := by
  decide

/-- C8 (amended): handle fields are never cleared: `stop` preserves the
presence of all three handles exactly, and `start` never empties a handle
field that was set — a non-null handle only means the process was spawned at
some point, not that it is still starting, running or stopping. -/
theorem handles_never_released :
    (∀ s : Manager,
       (stop s).1.redisProcess.isSome = s.redisProcess.isSome
       ∧ (stop s).1.workerProcess.isSome = s.workerProcess.isSome
       ∧ (stop s).1.apiProcess.isSome = s.apiProcess.isSome)
    ∧ (∀ (s : Manager) (o : Oracle),
       (s.redisProcess.isSome = true →
          (start s o).state.redisProcess.isSome = true)
       ∧ (s.workerProcess.isSome = true →
          (start s o).state.workerProcess.isSome = true)
       ∧ (s.apiProcess.isSome = true →
          (start s o).state.apiProcess.isSome = true)) :=
  ⟨stop_slots, start_slots⟩

/-- C9 (confirmed): the health check returns `true` exactly when the single
fetch resolved with a 2xx status; a non-2xx response, a timeout or a
connection failure all yield `false`, and the function is total — it never
propagates an error. -/
theorem healthCheck_iff (f : FetchOutcome) :
    healthCheck f = true
      ↔ ∃ status, f = FetchOutcome.response status
          ∧ 200 ≤ status ∧ status < 300 := by
  cases f with
  | response st => simp [healthCheck, responseOk]
  | failure => simp [healthCheck]

/-- C10 (confirmed): the shutting-down flag is monotone — every `stop` leaves
it set and no operation ever clears it — and a `stop` on a flagged manager is
a complete no-op, so the termination loop runs at most once per instance;
consequently a `start` issued after any completed `stop` keeps the flag and,
even when it fails, delivers no signal to any process: its rollback `stop`
returns immediately. -/
theorem shutdown_flag_monotone :
    (∀ s : Manager, (stop s).1.isShuttingDown = true)
    ∧ (∀ s : Manager, s.isShuttingDown = true → stop s = (s, [], 0))
    ∧ (∀ (s : Manager) (o : Oracle), s.isShuttingDown = true →
        (start s o).state.isShuttingDown = true
        ∧ ∀ n sg, Event.signaled n sg ∉ (start s o).events) :=
  ⟨stop_flag, stop_noop_of_flag, fun s o h => start_flagged s o h⟩

end Firecrawl
